import Mathlib

/-
Shallow embedding of `src/datumaro/components/format_detection.py`.

Paths are modelled with POSIX semantics: the `os.path` functions the module
uses (`isabs`, `splitdrive`, `normpath`, `basename`, `join`, `relpath`) are
the `posixpath` implementations, so `splitdrive` always returns an empty
drive.  The process working directory, which `posixpath.relpath` consults
through `abspath`, is passed explicitly.

The filesystem, which the Python module reaches through `glob.iglob`,
`os.path.isfile`, `os.path.isdir` and `open`, is modelled as an environment
of oracles (`Env`).  Python exceptions are modelled with an explicit result
type: `FormatRequirementsUnmet` is `PyExc.unmet`, a failed `assert` is
`PyExc.assertionError`, and any other exception is `PyExc.otherExc`.  The
mutable `_one_or_more_context` attribute of `FormatDetectionContext`, the
observable side effects of detector code (a trace), and the number of open
file handles form the state threaded through every operation.
-/

namespace FormatDetection

/-! ### posixpath primitives used by the module -/

/-- `os.sep` on POSIX. -/
def sep : String := "/"

/-- `posixpath.isabs`: the path starts with a slash. -/
def isabs (p : String) : Bool :=
  match p.data with
  | c :: _ => c == '/'
  | [] => false

/-- `posixpath.splitdrive`: POSIX paths never carry a drive. -/
def splitdrive (p : String) : String × String := ("", p)

def splitSlashAux : List Char → List Char → List String
  | [], acc => [String.mk acc.reverse]
  | c :: rest, acc =>
      if c = '/' then String.mk acc.reverse :: splitSlashAux rest []
      else splitSlashAux rest (c :: acc)

/-- Python `str.split('/')` (keeps empty pieces, total, never empty). -/
def splitSlash (p : String) : List String := splitSlashAux p.data []

/-- Python `sp.join(xs)`. -/
def joinWith (sp : String) : List String → String
  | [] => ""
  | [x] => x
  | x :: xs => x ++ sp ++ joinWith sp xs

/-- The number of leading slashes `posixpath.normpath` preserves:
two if the path starts with exactly two slashes, one if it starts with a
slash otherwise, zero if relative. -/
def initialSlashes (p : String) : Nat :=
  match p.data with
  | '/' :: '/' :: '/' :: _ => 1
  | '/' :: '/' :: _ => 2
  | '/' :: _ => 1
  | _ => 0

/-- The component scan inside `posixpath.normpath`: drop empty and `.`
components, resolve `..` against the accumulated components. -/
def normpathScan (initSl : Nat) (comps : List String) : List String :=
  comps.foldl
    (fun new_comps comp =>
      if comp = "" ∨ comp = "." then new_comps
      else if comp ≠ ".." ∨ (initSl = 0 ∧ new_comps = []) ∨
          new_comps.getLast? = some ".." then
        new_comps ++ [comp]
      else if new_comps ≠ [] then new_comps.dropLast
      else new_comps)
    []

/-- `posixpath.normpath`. -/
def normpath (p : String) : String :=
  if p = "" then "."
  else
    let initSl := initialSlashes p
    let comps := normpathScan initSl (splitSlash p)
    let joined := String.mk (List.replicate initSl '/') ++ joinWith "/" comps
    if joined = "" then "." else joined

/-- `posixpath.basename`: the part after the last slash. -/
def basename (p : String) : String := (splitSlash p).getLastD ""

def endsWithSlash (p : String) : Bool :=
  match p.data.getLast? with
  | some c => c == '/'
  | none => false

/-- `posixpath.join` restricted to two arguments. -/
def pathJoin (a b : String) : String :=
  if isabs b then b
  else if a = "" ∨ endsWithSlash a then a ++ b
  else a ++ "/" ++ b

/-- `posixpath.join` over a non-empty list of components. -/
def pathJoinMany : List String → String
  | [] => ""
  | c :: cs => cs.foldl pathJoin c

/-- `posixpath.abspath`, with the process working directory explicit. -/
def abspath (cwd p : String) : String :=
  normpath (if isabs p then p else pathJoin cwd p)

/-- `os.path.commonprefix` applied to two component lists. -/
def commonPrefixLen : List String → List String → Nat
  | a :: as, b :: bs => if a = b then commonPrefixLen as bs + 1 else 0
  | _, _ => 0

/-- `posixpath.relpath`, with the working directory explicit. -/
def relpath (cwd p start : String) : String :=
  let start_list := (splitSlash (abspath cwd start)).filter (fun x => x != "")
  let path_list := (splitSlash (abspath cwd p)).filter (fun x => x != "")
  let i := commonPrefixLen start_list path_list
  let rel_list := List.replicate (start_list.length - i) ".." ++ path_list.drop i
  if rel_list = [] then "." else pathJoinMany rel_list

/-! ### fnmatch and glob helpers -/

/-- Membership of a character in a bracket class, following the regular
expression `fnmatch.translate` builds: `a-b` is a range, a `-` that is not
between two characters is a literal. -/
def matchClassItems : List Char → Char → Bool
  | a :: '-' :: b :: rest, c =>
      if a ≤ c ∧ c ≤ b then true else matchClassItems rest c
  | a :: rest, c => if a = c then true else matchClassItems rest c
  | [], _ => false

/-- Scan for the closing `]` of a bracket class, returning the contents and
the remainder of the pattern. -/
def findClose : List Char → Option (List Char × List Char)
  | [] => none
  | c :: rest =>
      if c = ']' then some ([], rest)
      else
        match findClose rest with
        | some (xs, r) => some (c :: xs, r)
        | none => none

/-- The bracket scanning of `fnmatch.translate`: a leading `!` negates the
class, and a `]` directly after `[` (or after `[!`) belongs to the class.
`none` means there is no closing `]`, so the `[` is a literal. -/
def splitClassContents : List Char → Option (Bool × List Char × List Char)
  | '!' :: ']' :: rest => (findClose rest).map (fun pr => (true, ']' :: pr.1, pr.2))
  | '!' :: rest => (findClose rest).map (fun pr => (true, pr.1, pr.2))
  | ']' :: rest => (findClose rest).map (fun pr => (false, ']' :: pr.1, pr.2))
  | rest => (findClose rest).map (fun pr => (false, pr.1, pr.2))

/-- Fuel-indexed matcher for `fnmatch` patterns: `*` matches any sequence
(including slashes, as the source code comment notes), `?` any single
character, `[...]` a character class; other characters match literally.
The fuel only needs to exceed the total length of pattern and name. -/
def fnmatchAux : Nat → List Char → List Char → Bool
  | 0, _, _ => false
  | _ + 1, [], name => name.isEmpty
  | fuel + 1, '*' :: ps, name =>
      fnmatchAux fuel ps name ||
        (match name with
         | [] => false
         | _ :: ns => fnmatchAux fuel ('*' :: ps) ns)
  | fuel + 1, '?' :: ps, name =>
      (match name with
       | [] => false
       | _ :: ns => fnmatchAux fuel ps ns)
  | fuel + 1, '[' :: ps, name =>
      (match splitClassContents ps with
       | some (neg, body, rest) =>
           (match name with
            | [] => false
            | c :: ns =>
                (if neg then !(matchClassItems body c) else matchClassItems body c)
                  && fnmatchAux fuel rest ns)
       | none =>
           (match name with
            | [] => false
            | c :: ns => if c = '[' then fnmatchAux fuel ps ns else false))
  | fuel + 1, p :: ps, name =>
      (match name with
       | [] => false
       | c :: ns => if p = c then fnmatchAux fuel ps ns else false)

/-- `fnmatch.fnmatch(name, pat)` (POSIX `normcase` is the identity). -/
def fnmatch (name pat : String) : Bool :=
  fnmatchAux (pat.length + name.length + 1) pat.data name.data

/-- `glob.escape`: wrap each magic character in brackets. -/
def globEscape (p : String) : String :=
  String.mk (p.data.foldr
    (fun c acc =>
      if c = '*' ∨ c = '?' ∨ c = '[' then '[' :: c :: ']' :: acc else c :: acc)
    [])

/-! ### exceptions, state and the computation type -/

/-- The exception classes the module distinguishes. -/
inductive PyExc where
  | unmet (failed_alternatives : List String)
  | assertionError (msg : String)
  | otherExc (msg : String)
deriving DecidableEq, Repr

/-- `FormatDetectionContext._OneOrMoreContext`. -/
structure OneOrMoreContext where
  failed_alternatives : List String
  had_successful_alternatives : Bool
deriving DecidableEq, Repr

/-- The mutable state threaded through every operation: the context's
`_one_or_more_context` attribute, the trace of observable side effects of
detector code, and the number of open file handles. -/
structure DetState where
  one_or_more_context : Option OneOrMoreContext
  trace : List String
  openHandles : Nat
deriving DecidableEq, Repr

/-- The outcome of a computation: a value or an exception, together with
the final state (Python state survives exceptions). -/
inductive MResult (α : Type) where
  | ok (a : α) (s : DetState)
  | error (e : PyExc) (s : DetState)
deriving DecidableEq, Repr

def MResult.state : MResult α → DetState
  | .ok _ s => s
  | .error _ s => s

def MResult.isOk : MResult α → Bool
  | .ok _ _ => true
  | .error _ _ => false

/-- Stateful computations that can raise. -/
def M (α : Type) : Type := DetState → MResult α

def M.pure (a : α) : M α := fun s => .ok a s

def M.bind (x : M α) (f : α → M β) : M β := fun s =>
  match x s with
  | .ok a s' => f a s'
  | .error e s' => .error e s'

instance : Monad M where
  pure := M.pure
  bind := M.bind

def M.throw (e : PyExc) : M α := fun s => .error e s

/-- Python `try`/`except`: the handler runs in the state at the point the
exception was raised. -/
def M.tryCatch (x : M α) (handle : PyExc → M α) : M α := fun s =>
  match x s with
  | .ok a s' => .ok a s'
  | .error e s' => handle e s'

/-- Python `try`/`finally`: the cleanup runs on every exit path; if it
raises, its exception replaces the original one. -/
def M.tryFinally (x : M α) (cleanup : M Unit) : M α := fun s =>
  match x s with
  | .ok a s' =>
      match cleanup s' with
      | .ok _ s'' => .ok a s''
      | .error e' s'' => .error e' s''
  | .error e s' =>
      match cleanup s' with
      | .ok _ s'' => .error e s''
      | .error e' s'' => .error e' s''

def M.get : M DetState := fun s => .ok s s

/-- Assignment to `self._one_or_more_context`. -/
def M.setOMC (c : Option OneOrMoreContext) : M Unit := fun s =>
  .ok () { s with one_or_more_context := c }

/-- An observable side effect of detector code. -/
def M.emit (msg : String) : M Unit := fun s =>
  .ok () { s with trace := s.trace ++ [msg] }

/-- Opening a file handle. -/
def M.openHandle : M Unit := fun s =>
  .ok () { s with openHandles := s.openHandles + 1 }

/-- Closing a file handle. -/
def M.closeHandle : M Unit := fun s =>
  .ok () { s with openHandles := s.openHandles - 1 }

/-- The filesystem oracles the module consults.  `iglob` returns, in
iteration order, the results of `glob.iglob(·, recursive=True)`; `openText`
returns the decoded contents when `open(·, encoding='utf-8')` and decoding
succeed, and `none` when they raise. -/
structure Env where
  cwd : String
  iglob : String → List String
  isfile : String → Bool
  isdir : String → Bool
  openText : String → Option String

/-! ### the FormatDetectionContext operations -/

/-- `FormatDetectionContext._is_path_within_root`, line 117:
`path.startswith('..' + os.sep)`. -/
def startsWithDotDotSlash (p : String) : Bool :=
  match p.data with
  | '.' :: '.' :: '/' :: _ => true
  | _ => false

/-- `FormatDetectionContext._is_path_within_root`. -/
def is_path_within_root (path : String) : Bool :=
  if isabs path ∨ (splitdrive path).1 ≠ "" then false
  else if startsWithDotDotSlash (normpath path) then false
  else true

/-- The message of the assertion inside `_start_requirement`. -/
def startReqMsg (req_type : String) : String :=
  "a requirement (" ++ req_type ++
    ") can't be placed directly within a 'require_any' block"

/-- `FormatDetectionContext._start_requirement`: asserts that the context is
not directly inside a `require_any` block. -/
def start_requirement (req_type : String) : M Unit := fun s =>
  match s.one_or_more_context with
  | some _ => .error (.assertionError (startReqMsg req_type)) s
  | none => .ok () s

/-- `FormatDetectionContext.fail`: a requirement that is never met.  The
Python function never returns, so the result type is arbitrary. -/
def fail (requirement_desc : String) : M α :=
  M.bind (start_requirement "fail") (fun _ =>
    M.throw (.unmet [requirement_desc]))

/-- The `requirement_desc` string built inside `require_file`. -/
def requireFileDesc (pattern : String) (exclude_fnames : List String) : String :=
  let d := "dataset must contain a file matching pattern \"" ++ pattern ++ "\""
  if exclude_fnames = [] then d
  else d ++ " (but not named " ++
    joinWith ", " (exclude_fnames.map (fun e => "\"" ++ e ++ "\"")) ++ ")"

/-- The `for path in glob.iglob(...)` loop inside `require_file`: skip
non-files and files whose basename matches an exclusion pattern, return the
relative path of the first remaining match. -/
def require_file_scan (env : Env) (root_path : String)
    (exclude_fnames : List String) : List String → Option String
  | [] => none
  | path :: rest =>
      if env.isfile path then
        if exclude_fnames.any (fun pat => fnmatch (basename path) pat) then
          require_file_scan env root_path exclude_fnames rest
        else some (relpath env.cwd path root_path)
      else require_file_scan env root_path exclude_fnames rest

/-- `FormatDetectionContext.require_file`.  `exclude_fnames` is given as a
list (the Python string overload merely wraps a single pattern in a tuple). -/
def require_file (env : Env) (root_path pattern : String)
    (exclude_fnames : List String) : M String :=
  M.bind (start_requirement "require_file") (fun _ =>
    let requirement_desc := requireFileDesc pattern exclude_fnames
    if is_path_within_root pattern = false then fail requirement_desc
    else
      let pattern_abs := pathJoin (globEscape root_path) pattern
      match require_file_scan env root_path exclude_fnames
          (env.iglob pattern_abs) with
      | some rel => M.pure rel
      | none => fail requirement_desc)

/-- `FormatDetectionContext.probe_text_file`.  The caller's `with` block is
`body`; it receives the decoded file contents (standing in for the `TextIO`
object).  The `with open(...)` statement acquires a handle and releases it
on every exit path; `except FormatRequirementsUnmet` re-raises, and
`except Exception` converts everything else through `self.fail`. -/
def probe_text_file (env : Env) (root_path path requirement_desc : String)
    (body : String → M Unit) : M Unit :=
  M.bind (start_requirement "probe_text_file") (fun _ =>
    let requirement_desc_full := path ++ ": " ++ requirement_desc
    if is_path_within_root path = false then fail requirement_desc_full
    else
      M.tryCatch
        (match env.openText (pathJoin root_path path) with
         | none => M.throw (.otherExc ("cannot open " ++ path))
         | some contents =>
             M.bind M.openHandle (fun _ =>
               M.tryFinally (body contents) M.closeHandle))
        (fun e =>
          match e with
          | .unmet fs => M.throw (.unmet fs)
          | _ => fail requirement_desc_full))

/-- The message of the zero-alternatives assertion inside `require_any`. -/
def requireAnyAssertMsg : String :=
  "a 'require_any' block must contain at least one 'alternative' block"

/-- `FormatDetectionContext.require_any`; the caller's `with` block is
`body`.  The fresh `_OneOrMoreContext` is installed before the body and the
`finally` clause clears it on every exit path.  Reading the attribute when
the body illegally left it `None` would be a Python `AttributeError`. -/
def require_any (body : M Unit) : M Unit :=
  M.bind (start_requirement "require_any") (fun _ =>
    M.bind (M.setOMC (some { failed_alternatives := [],
                             had_successful_alternatives := false })) (fun _ =>
      M.tryFinally
        (M.bind body (fun _ =>
          M.bind M.get (fun s =>
            match s.one_or_more_context with
            | some c =>
                if c.had_successful_alternatives then M.pure ()
                else if c.failed_alternatives = [] then
                  M.throw (.assertionError requireAnyAssertMsg)
                else M.throw (.unmet c.failed_alternatives)
            | none => M.throw (.otherExc "AttributeError"))))
        (M.setOMC none)))

/-- The message of the assertion at the top of `alternative`. -/
def alternativeAssertMsg : String :=
  "An 'alternative' block must be directly within a 'require_any' block"

/-- `FormatDetectionContext.alternative`; the caller's `with` block is
`body`.  The parent scope is saved and suspended around the body; an
`FormatRequirementsUnmet` from the body is swallowed into the saved scope's
failure list, success marks the saved scope, any other exception propagates;
the `finally` clause restores the scope in every case. -/
def alternative (body : M Unit) : M Unit := fun s =>
  match s.one_or_more_context with
  | none => .error (.assertionError alternativeAssertMsg) s
  | some saved =>
      match body { s with one_or_more_context := none } with
      | .ok _ s' =>
          let saved' := { saved with had_successful_alternatives := true }
          .ok () { s' with one_or_more_context := some saved' }
      | .error (.unmet fs) s' =>
          let saved' := { saved with
            failed_alternatives := saved.failed_alternatives ++ fs }
          .ok () { s' with one_or_more_context := some saved' }
      | .error e s' =>
          .error e { s' with one_or_more_context := some saved }

/-! ### confidence levels and the dispatcher -/

/-- `FormatDetectionConfidence` (an `IntEnum`). -/
inductive FormatDetectionConfidence where
  | LOW
  | MEDIUM
deriving DecidableEq, Repr

/-- The numeric values of the enumeration members. -/
def FormatDetectionConfidence.value : FormatDetectionConfidence → Nat
  | .LOW => 10
  | .MEDIUM => 20

/-- Python `x or default` on an `Optional[IntEnum]`: `None` is falsy, and a
member is truthy exactly when its numeric value is nonzero. -/
def pyOrConfidence (c : Option FormatDetectionConfidence)
    (dflt : FormatDetectionConfidence) : FormatDetectionConfidence :=
  match c with
  | some v => if v.value ≠ 0 then v else dflt
  | none => dflt

/-- The state of a freshly constructed `FormatDetectionContext`. -/
def initState : DetState :=
  { one_or_more_context := none, trace := [], openHandles := 0 }

/-- `apply_format_detector`.  The detector receives the context's root path
and runs against a fresh context state. -/
def apply_format_detector (env : Env) (dataset_root_path : String)
    (detector : String → M (Option FormatDetectionConfidence)) :
    MResult FormatDetectionConfidence :=
  (M.bind
    (if env.isdir dataset_root_path = false then
       fail ("root path " ++ dataset_root_path ++ " must refer to a directory")
     else M.pure ())
    (fun _ =>
      M.bind (detector dataset_root_path) (fun c =>
        M.pure (pyOrConfidence c FormatDetectionConfidence.MEDIUM))))
    initState

/-! ### abstract detector bodies used to quantify over `with` blocks -/

/-- The observable behavior of one `alternative` body: the side effects it
performs, and either normal completion (`none`) or a raised
`FormatRequirementsUnmet` with the given failure list. -/
structure AltSpec where
  effects : List String
  outcome : Option (List String)
deriving DecidableEq, Repr

def emitAll : List String → M Unit
  | [] => M.pure ()
  | e :: es => M.bind (M.emit e) (fun _ => emitAll es)

/-- The body of one `alternative` block with the given observable behavior. -/
def altBody (a : AltSpec) : M Unit :=
  M.bind (emitAll a.effects) (fun _ =>
    match a.outcome with
    | none => M.pure ()
    | some fs => M.throw (.unmet fs))

/-- A `require_any` body consisting of the given `alternative` blocks in
order. -/
def altSeq : List AltSpec → M Unit
  | [] => M.pure ()
  | a :: rest => M.bind (alternative (altBody a)) (fun _ => altSeq rest)

/-- The concatenation, in block order, of the failure lists of the failing
alternatives. -/
def failsOf (alts : List AltSpec) : List String :=
  (alts.map (fun a => a.outcome.getD [])).flatten

/-- Whether at least one alternative completes normally. -/
def anySucc (alts : List AltSpec) : Bool :=
  alts.any (fun a => a.outcome.isNone)

/-- The side effects of all alternatives, in block order. -/
def effectsOf (alts : List AltSpec) : List String :=
  (alts.map (fun a => a.effects)).flatten

/-- How one `alternative` body updates the saved parent scope. -/
def applyAlt (c : OneOrMoreContext) (a : AltSpec) : OneOrMoreContext :=
  match a.outcome with
  | none => { c with had_successful_alternatives := true }
  | some fs => { c with failed_alternatives := c.failed_alternatives ++ fs }

/-- The observable behavior of a `probe_text_file` caller block: side
effects, then normal completion, a `FormatRequirementsUnmet`, or some other
exception. -/
inductive BlockOutcome where
  | ok
  | unmet (fs : List String)
  | exc (msg : String)
deriving DecidableEq, Repr

structure BlockSpec where
  effects : List String
  outcome : BlockOutcome
deriving DecidableEq, Repr

/-- A `probe_text_file` caller block with the given observable behavior. -/
def blockBody (b : BlockSpec) : String → M Unit := fun _ =>
  M.bind (emitAll b.effects) (fun _ =>
    match b.outcome with
    | .ok => M.pure ()
    | .unmet fs => M.throw (.unmet fs)
    | .exc m => M.throw (.otherExc m))

/-- Whether a pattern string contains a literal `..` segment. -/
def hasParentSegment (p : String) : Bool := (splitSlash p).contains ".."

/-! ### concrete fixtures used to instantiate the theorems -/

/-- A root `/r` containing the regular file `b`, reachable through the
`..`-containing but root-normalizing pattern `a/../b`: `glob` yields
`/r/a/../b` for that pattern. -/
def envC1 : Env :=
  { cwd := "/cwd"
    iglob := fun q => if q = "/r/a/../b" then ["/r/a/../b"] else []
    isfile := fun p => p == "/r/a/../b"
    isdir := fun p => p == "/r"
    openText := fun _ => none }

/-- A root `/r` containing the readable text file `a.txt`. -/
def envC7 : Env :=
  { cwd := "/cwd"
    iglob := fun q => if q = "/r/a.txt" then ["/r/a.txt"] else []
    isfile := fun p => p == "/r/a.txt"
    isdir := fun p => p == "/r"
    openText := fun p => if p = "/r/a.txt" then some "hello" else none }

/-- A filesystem with no directories at all. -/
def envNoDir : Env :=
  { cwd := "/cwd", iglob := fun _ => [], isfile := fun _ => false,
    isdir := fun _ => false, openText := fun _ => none }

/-- A filesystem whose only directory is `/data`. -/
def envDirOk : Env :=
  { cwd := "/cwd", iglob := fun _ => [], isfile := fun _ => false,
    isdir := fun p => p == "/data", openText := fun _ => none }

/-- Two alternatives that both fail. -/
def altsC2 : List AltSpec :=
  [{ effects := ["alt1 ran"], outcome := some ["need A"] },
   { effects := ["alt2 ran"], outcome := some ["need B", "need C"] }]

/-- Three alternatives of which only the last succeeds. -/
def altsC3 : List AltSpec :=
  [{ effects := ["alt1 ran"], outcome := some ["need A"] },
   { effects := ["alt2 ran"], outcome := some ["need B"] },
   { effects := ["alt3 ran"], outcome := none }]

/-- A probe block that raises its own unmet requirement. -/
def blockC4 : BlockSpec := { effects := ["probed"], outcome := .unmet ["inner"] }

/-- An empty alternation scope. -/
def omcEx : OneOrMoreContext :=
  { failed_alternatives := [], had_successful_alternatives := false }

/-- A state directly inside an active `require_any` block. -/
def sIn : DetState :=
  { one_or_more_context := some omcEx, trace := [], openHandles := 0 }

/-- A detector with an observable side effect. -/
def noisyDetector : String → M (Option FormatDetectionConfidence) :=
  fun _ => M.bind (M.emit "detector ran") (fun _ => M.pure (some .LOW))

/-- A detector that immediately returns the LOW confidence level. -/
def lowDetector : String → M (Option FormatDetectionConfidence) :=
  fun _ => M.pure (some .LOW)

/-- One failing alternative used for the restoration witness. -/
def altC10 : AltSpec := { effects := ["eff"], outcome := some ["f"] }

/-! ### helper lemmas about the embedded operations -/

lemma emitAll_run (es : List String) (s : DetState) :
    emitAll es s = .ok () { s with trace := s.trace ++ es } := by
  induction es generalizing s with
  | nil => simp [emitAll, M.pure]
  | cons e es ih => simp [emitAll, M.bind, M.emit, ih]

lemma altBody_run_none (a : AltSpec) (h : a.outcome = none) (s : DetState) :
    altBody a s = .ok () { s with trace := s.trace ++ a.effects } := by
  simp [altBody, M.bind, emitAll_run, h, M.pure]

lemma altBody_run_some (a : AltSpec) (fs : List String)
    (h : a.outcome = some fs) (s : DetState) :
    altBody a s = .error (.unmet fs) { s with trace := s.trace ++ a.effects } := by
  simp [altBody, M.bind, emitAll_run, h, M.throw]

lemma alternative_altBody_run (a : AltSpec) (c : OneOrMoreContext)
    (s : DetState) (h : s.one_or_more_context = some c) :
    alternative (altBody a) s =
      .ok () { one_or_more_context := some (applyAlt c a),
               trace := s.trace ++ a.effects,
               openHandles := s.openHandles } := by
  obtain ⟨omc, tr, oh⟩ := s
  simp only at h
  subst h
  cases ho : a.outcome with
  | none => simp [alternative, altBody_run_none a ho, applyAlt, ho]
  | some fs => simp [alternative, altBody_run_some a fs ho, applyAlt, ho]

lemma altSeq_run (alts : List AltSpec) (s : DetState) (c : OneOrMoreContext)
    (h : s.one_or_more_context = some c) :
    altSeq alts s =
      .ok () { one_or_more_context := some
                 { failed_alternatives := c.failed_alternatives ++ failsOf alts,
                   had_successful_alternatives :=
                     c.had_successful_alternatives || anySucc alts },
               trace := s.trace ++ effectsOf alts,
               openHandles := s.openHandles } := by
  induction alts generalizing s c with
  | nil =>
    obtain ⟨omc, tr, oh⟩ := s
    simp only at h
    subst h
    simp [altSeq, M.pure, failsOf, anySucc, effectsOf]
  | cons a rest ih =>
    obtain ⟨omc, tr, oh⟩ := s
    simp only at h
    subst h
    have h1 := alternative_altBody_run a c ⟨some c, tr, oh⟩ rfl
    have h2 := ih ⟨some (applyAlt c a), tr ++ a.effects, oh⟩ (applyAlt c a) rfl
    simp only [altSeq, M.bind, h1, h2]
    cases ho : a.outcome with
    | none =>
      simp [applyAlt, ho, failsOf, anySucc, effectsOf, List.append_assoc]
    | some fs =>
      simp [applyAlt, ho, failsOf, anySucc, effectsOf, List.append_assoc]

lemma require_any_altSeq (alts : List AltSpec) (s : DetState)
    (h : s.one_or_more_context = none) :
    require_any (altSeq alts) s =
      if anySucc alts = true then
        .ok () { one_or_more_context := none,
                 trace := s.trace ++ effectsOf alts,
                 openHandles := s.openHandles }
      else if failsOf alts = [] then
        .error (.assertionError requireAnyAssertMsg)
          { one_or_more_context := none,
            trace := s.trace ++ effectsOf alts,
            openHandles := s.openHandles }
      else
        .error (.unmet (failsOf alts))
          { one_or_more_context := none,
            trace := s.trace ++ effectsOf alts,
            openHandles := s.openHandles } := by
  obtain ⟨omc, tr, oh⟩ := s
  simp only at h
  subst h
  have h1 := altSeq_run alts
    ⟨some ⟨[], false⟩, tr, oh⟩ ⟨[], false⟩ rfl
  simp only [require_any, M.bind, start_requirement, M.setOMC, M.tryFinally,
    M.get, M.throw, M.pure, h1]
  by_cases hA : anySucc alts = true
  · simp [hA, M.pure, M.throw]
  · by_cases hF : failsOf alts = []
    · simp [hA, hF, M.pure, M.throw]
    · simp [hA, hF, M.pure, M.throw]

lemma anySucc_eq_false (alts : List AltSpec)
    (h : ∀ a ∈ alts, a.outcome ≠ none) : anySucc alts = false := by
  simp only [anySucc, List.any_eq_false]
  intro a ha
  simp only [Option.isNone_iff_eq_none]
  exact h a ha

lemma probe_run (env : Env) (root path desc : String) (b : BlockSpec)
    (s : DetState) (h : s.one_or_more_context = none) :
    probe_text_file env root path desc (blockBody b) s =
      if is_path_within_root path = false then
        .error (.unmet [path ++ ": " ++ desc]) s
      else
        match env.openText (pathJoin root path) with
        | none => .error (.unmet [path ++ ": " ++ desc]) s
        | some _ =>
            match b.outcome with
            | .ok => .ok () { s with trace := s.trace ++ b.effects }
            | .unmet fs =>
                .error (.unmet fs) { s with trace := s.trace ++ b.effects }
            | .exc _ =>
                .error (.unmet [path ++ ": " ++ desc])
                  { s with trace := s.trace ++ b.effects } := by
  obtain ⟨omc, tr, oh⟩ := s
  simp only at h
  subst h
  by_cases hc : is_path_within_root path = false
  · simp [probe_text_file, M.bind, start_requirement, fail, M.throw, hc]
  · cases hop : env.openText (pathJoin root path) with
    | none =>
      simp [probe_text_file, M.bind, start_requirement, fail, M.throw,
        M.tryCatch, hc, hop]
    | some contents =>
      cases hb : b.outcome with
      | ok =>
        simp [probe_text_file, M.bind, start_requirement, fail, M.throw,
          M.tryCatch, M.tryFinally, M.openHandle, M.closeHandle, hc, hop,
          blockBody, emitAll_run, hb, M.pure]
      | unmet fs =>
        simp [probe_text_file, M.bind, start_requirement, fail, M.throw,
          M.tryCatch, M.tryFinally, M.openHandle, M.closeHandle, hc, hop,
          blockBody, emitAll_run, hb]
      | exc m =>
        simp [probe_text_file, M.bind, start_requirement, fail, M.throw,
          M.tryCatch, M.tryFinally, M.openHandle, M.closeHandle, hc, hop,
          blockBody, emitAll_run, hb]

lemma require_file_scan_some (env : Env) (root : String)
    (excl : List String) :
    ∀ (ps : List String) (r : String),
      require_file_scan env root excl ps = some r →
      ∃ p, p ∈ ps ∧ env.isfile p = true ∧
        excl.any (fun pat => fnmatch (basename p) pat) = false ∧
        r = relpath env.cwd p root := by
  intro ps
  induction ps with
  | nil => intro r h; simp [require_file_scan] at h
  | cons p rest ih =>
    intro r h
    by_cases hf : env.isfile p = true
    · by_cases he : excl.any (fun pat => fnmatch (basename p) pat) = true
      · simp only [require_file_scan, hf, he, if_true] at h
        obtain ⟨q, hq, h1, h2, h3⟩ := ih r h
        exact ⟨q, List.mem_cons_of_mem p hq, h1, h2, h3⟩
      · simp only [require_file_scan, hf, he, if_true, if_false] at h
        refine ⟨p, List.mem_cons_self p rest, hf, ?_, ?_⟩
        · simpa using he
        · simp at h
          exact h.symm
    · simp only [require_file_scan] at h
      rw [if_neg] at h
      · obtain ⟨q, hq, h1, h2, h3⟩ := ih r h
        exact ⟨q, List.mem_cons_of_mem p hq, h1, h2, h3⟩
      · simpa using hf

lemma require_file_scan_none (env : Env) (root : String)
    (excl : List String) :
    ∀ (ps : List String),
      (∀ p ∈ ps, env.isfile p = true →
        excl.any (fun pat => fnmatch (basename p) pat) = true) →
      require_file_scan env root excl ps = none := by
  intro ps
  induction ps with
  | nil => intro _; simp [require_file_scan]
  | cons p rest ih =>
    intro h
    by_cases hf : env.isfile p = true
    · have he := h p (List.mem_cons_self p rest) hf
      simp only [require_file_scan, hf, he, if_true]
      exact ih (fun q hq => h q (List.mem_cons_of_mem p hq))
    · simp only [require_file_scan]
      rw [if_neg]
      · exact ih (fun q hq => h q (List.mem_cons_of_mem p hq))
      · simpa using hf

/-! ### the claims -/

/-- C1 counterexample: the pattern `a/../b` contains a `..` segment, yet
`require_file` succeeds on it (returning `b`) when the root `/r` contains a
matching file, because `_is_path_within_root` checks the normalized pattern,
and `a/../b` normalizes to the in-root path `b`. -/
theorem C1_counterexample :
    hasParentSegment "a/../b" = true ∧
    require_file envC1 "/r" "a/../b" [] initState = .ok "b" initState := by
  constructor
  · decide
  · decide

/-- C1 (amended): every absolute pattern fails the traversal check, and for
every pattern that fails the traversal check (absolute, or normalizing to a
path that escapes the root through a leading `..` segment), `require_file`
raises `FormatRequirementsUnmet` with the pattern's requirement description,
regardless of the filesystem contents. -/
theorem C1_theorem :
    (∀ pattern : String, isabs pattern = true →
      is_path_within_root pattern = false) ∧
    (∀ (env : Env) (root pattern : String) (excl : List String) (s : DetState),
      s.one_or_more_context = none →
      is_path_within_root pattern = false →
      require_file env root pattern excl s =
        .error (.unmet [requireFileDesc pattern excl]) s) := by
  constructor
  · intro pattern h
    simp [is_path_within_root, h]
  · intro env root pattern excl s h hp
    obtain ⟨omc, tr, oh⟩ := s
    simp only at h
    subst h
    simp [require_file, M.bind, start_requirement, fail, M.throw, hp]

/-- C1 witness: the amended theorem applied to the absolute pattern `/abs`. -/
theorem C1_witness :
    isabs "/abs" = true ∧
    initState.one_or_more_context = none ∧
    require_file envC1 "/r" "/abs" [] initState =
      .error (.unmet [requireFileDesc "/abs" []]) initState :=
  ⟨by decide, rfl,
    C1_theorem.2 envC1 "/r" "/abs" [] initState rfl
      (C1_theorem.1 "/abs" (by decide))⟩

/-- C2: when no alternative of a `require_any` block succeeds, the block
raises `FormatRequirementsUnmet` whose failure list is the concatenation, in
block order, of the failed alternatives' failure lists; in particular with
exactly one failing alternative the raised list equals that alternative's
list exactly. -/
theorem C2_theorem :
    (∀ (alts : List AltSpec) (s : DetState),
      s.one_or_more_context = none →
      (∀ a ∈ alts, a.outcome ≠ none) →
      failsOf alts ≠ [] →
      require_any (altSeq alts) s =
        .error (.unmet (failsOf alts))
          { one_or_more_context := none,
            trace := s.trace ++ effectsOf alts,
            openHandles := s.openHandles }) ∧
    (∀ (eff fs : List String) (s : DetState),
      s.one_or_more_context = none →
      fs ≠ [] →
      require_any (altSeq [{ effects := eff, outcome := some fs }]) s =
        .error (.unmet fs)
          { one_or_more_context := none,
            trace := s.trace ++ eff,
            openHandles := s.openHandles }) := by
  constructor
  · intro alts s h hfail hne
    rw [require_any_altSeq alts s h, anySucc_eq_false alts hfail]
    simp [hne]
  · intro eff fs s h hne
    rw [require_any_altSeq _ s h]
    have hA : anySucc [({ effects := eff, outcome := some fs } : AltSpec)]
        = false := by
      simp [anySucc]
    rw [hA]
    simp [failsOf, effectsOf, hne]

/-- C2 witness: two failing alternatives yield the concatenated failure
list. -/
theorem C2_witness :
    initState.one_or_more_context = none ∧
    (∀ a ∈ altsC2, a.outcome ≠ none) ∧
    failsOf altsC2 ≠ [] ∧
    require_any (altSeq altsC2) initState =
      .error (.unmet (failsOf altsC2))
        { one_or_more_context := none,
          trace := initState.trace ++ effectsOf altsC2,
          openHandles := initState.openHandles } :=
  ⟨rfl, by decide, by decide,
    C2_theorem.1 altsC2 initState rfl (by decide) (by decide)⟩

/-- C3: a `require_any` block with at least one succeeding alternative
succeeds, and every alternative body runs in full: the final trace contains
the side effects of all alternatives, in block order. -/
theorem C3_theorem (alts : List AltSpec) (s : DetState)
    (h : s.one_or_more_context = none) (hs : anySucc alts = true) :
    require_any (altSeq alts) s =
      .ok () { one_or_more_context := none,
               trace := s.trace ++ effectsOf alts,
               openHandles := s.openHandles } := by
  rw [require_any_altSeq alts s h, hs]
  simp

/-- C3 witness: three alternatives of which only the last succeeds; all
three bodies leave their side effects. -/
theorem C3_witness :
    initState.one_or_more_context = none ∧
    anySucc altsC3 = true ∧
    require_any (altSeq altsC3) initState =
      .ok () { one_or_more_context := none,
               trace := initState.trace ++ effectsOf altsC3,
               openHandles := initState.openHandles } :=
  ⟨rfl, by decide, C3_theorem altsC3 initState rfl (by decide)⟩

/-- C4: `probe_text_file` meets its requirement exactly when the path
passes the traversal check, the file opens and decodes, and the caller's
block completes; a `FormatRequirementsUnmet` raised by the block propagates
unchanged; any other failure raises `FormatRequirementsUnmet` whose single
description combines the path with the caller-supplied description. -/
theorem C4_theorem (env : Env) (root path desc : String) (b : BlockSpec)
    (s : DetState) (h : s.one_or_more_context = none) :
    ((probe_text_file env root path desc (blockBody b) s).isOk = true ↔
      (is_path_within_root path = true ∧
       (env.openText (pathJoin root path)).isSome = true ∧
       b.outcome = .ok)) ∧
    (∀ fs, b.outcome = .unmet fs →
      is_path_within_root path = true →
      (env.openText (pathJoin root path)).isSome = true →
      probe_text_file env root path desc (blockBody b) s =
        .error (.unmet fs) { s with trace := s.trace ++ b.effects }) ∧
    ((is_path_within_root path = false ∨
      env.openText (pathJoin root path) = none ∨
      (∃ m, b.outcome = .exc m)) →
      ∃ s', probe_text_file env root path desc (blockBody b) s =
        .error (.unmet [path ++ ": " ++ desc]) s') := by
  have hpr := probe_run env root path desc b s h
  refine ⟨?_, ?_, ?_⟩
  · rw [hpr]
    by_cases hc : is_path_within_root path = false
    · simp [hc, MResult.isOk]
    · cases hop : env.openText (pathJoin root path) with
      | none => simp [hc, hop, MResult.isOk]
      | some contents =>
        cases hb : b.outcome with
        | ok => simp [hc, hop, hb, MResult.isOk]
        | unmet fs => simp [hc, hop, hb, MResult.isOk]
        | exc m => simp [hc, hop, hb, MResult.isOk]
  · intro fs hb hcheck hopen
    rw [hpr]
    obtain ⟨contents, hop⟩ := Option.isSome_iff_exists.mp hopen
    simp [hcheck, hop, hb]
  · intro hdisj
    rw [hpr]
    by_cases hc : is_path_within_root path = false
    · exact ⟨s, by simp [hc]⟩
    · cases hop : env.openText (pathJoin root path) with
      | none => exact ⟨s, by simp [hc, hop]⟩
      | some contents =>
        rcases hdisj with hc' | hop' | ⟨m, hb⟩
        · exact absurd hc' hc
        · rw [hop] at hop'
          exact absurd hop' (by simp)
        · exact ⟨{ s with trace := s.trace ++ b.effects },
            by simp [hc, hop, hb]⟩

/-- C4 witness: the theorem applied to the readable file `a.txt` of `envC7`
and a block that raises its own unmet requirement, which propagates
unchanged. -/
theorem C4_witness :
    initState.one_or_more_context = none ∧
    (((probe_text_file envC7 "/r" "a.txt" "d" (blockBody blockC4)
        initState).isOk = true ↔
      (is_path_within_root "a.txt" = true ∧
       (envC7.openText (pathJoin "/r" "a.txt")).isSome = true ∧
       blockC4.outcome = .ok)) ∧
     (∀ fs, blockC4.outcome = .unmet fs →
       is_path_within_root "a.txt" = true →
       (envC7.openText (pathJoin "/r" "a.txt")).isSome = true →
       probe_text_file envC7 "/r" "a.txt" "d" (blockBody blockC4) initState =
         .error (.unmet fs)
           { initState with trace := initState.trace ++ blockC4.effects }) ∧
     ((is_path_within_root "a.txt" = false ∨
       envC7.openText (pathJoin "/r" "a.txt") = none ∨
       (∃ m, blockC4.outcome = .exc m)) →
       ∃ s', probe_text_file envC7 "/r" "a.txt" "d" (blockBody blockC4)
           initState =
         .error (.unmet ["a.txt" ++ ": " ++ "d"]) s')) :=
  ⟨rfl, C4_theorem envC7 "/r" "a.txt" "d" blockC4 initState rfl⟩

/-- C5: `probe_text_file` never leaks a file handle: on every exit path
(success, requirement failure, unrelated exception, even a contract
violation before opening) the number of open handles afterwards equals the
number before the call. -/
theorem C5_theorem (env : Env) (root path desc : String) (b : BlockSpec)
    (s : DetState) :
    ((probe_text_file env root path desc (blockBody b) s).state).openHandles
      = s.openHandles := by
  by_cases h : s.one_or_more_context = none
  · rw [probe_run env root path desc b s h]
    by_cases hc : is_path_within_root path = false
    · simp [hc, MResult.state]
    · cases hop : env.openText (pathJoin root path) with
      | none => simp [hc, hop, MResult.state]
      | some contents =>
        cases hb : b.outcome <;> simp [hc, hop, hb, MResult.state]
  · obtain ⟨omc, tr, oh⟩ := s
    cases omc with
    | none => simp at h
    | some c =>
        simp [probe_text_file, M.bind, start_requirement, MResult.state]

/-- C6: placing a bare requirement (`fail`, `require_file`,
`probe_text_file` or `require_any`) while directly inside an active
`require_any` scope raises the `AssertionError` of `_start_requirement`,
and exiting a `require_any` block with zero alternatives raises the
zero-alternatives `AssertionError`; both are a different exception class
from `FormatRequirementsUnmet`. -/
theorem C6_theorem (s : DetState) (c : OneOrMoreContext)
    (h : s.one_or_more_context = some c) :
    (∀ d : String, (fail d : M Unit) s =
      .error (.assertionError (startReqMsg "fail")) s) ∧
    (∀ (env : Env) (root pattern : String) (excl : List String),
      require_file env root pattern excl s =
        .error (.assertionError (startReqMsg "require_file")) s) ∧
    (∀ (env : Env) (root path desc : String) (body : String → M Unit),
      probe_text_file env root path desc body s =
        .error (.assertionError (startReqMsg "probe_text_file")) s) ∧
    (∀ body : M Unit, require_any body s =
      .error (.assertionError (startReqMsg "require_any")) s) ∧
    (∀ s₂ : DetState, s₂.one_or_more_context = none →
      require_any (altSeq []) s₂ =
        .error (.assertionError requireAnyAssertMsg)
          { one_or_more_context := none, trace := s₂.trace,
            openHandles := s₂.openHandles }) := by
  obtain ⟨omc, tr, oh⟩ := s
  simp only at h
  subst h
  refine ⟨?_, ?_, ?_, ?_, ?_⟩
  · intro d
    simp [fail, M.bind, start_requirement]
  · intro env root pattern excl
    simp [require_file, M.bind, start_requirement]
  · intro env root path desc body
    simp [probe_text_file, M.bind, start_requirement]
  · intro body
    simp [require_any, M.bind, start_requirement]
  · intro s₂ h₂
    have h1 := require_any_altSeq [] s₂ h₂
    simpa [anySucc, failsOf, effectsOf] using h1

/-- C6 witness: the theorem applied inside an active scope, plus the
zero-alternatives case from a legal state. -/
theorem C6_witness :
    sIn.one_or_more_context = some omcEx ∧
    (fail "boom" : M Unit) sIn =
      .error (.assertionError (startReqMsg "fail")) sIn ∧
    initState.one_or_more_context = none ∧
    require_any (altSeq []) initState =
      .error (.assertionError requireAnyAssertMsg)
        { one_or_more_context := none, trace := initState.trace,
          openHandles := initState.openHandles } :=
  ⟨rfl, (C6_theorem sIn omcEx rfl).1 "boom", rfl,
    (C6_theorem sIn omcEx rfl).2.2.2.2 initState rfl⟩

/-- C7: when `require_file` returns, the returned value is the path of a
glob match relative to the root, that match is a regular file at call time,
and its basename matches none of the exclusion patterns; when every glob
match that is a file has an excluded basename, `require_file` raises
`FormatRequirementsUnmet` instead. -/
theorem C7_theorem (env : Env) (root pattern : String) (excl : List String)
    (s : DetState) (h : s.one_or_more_context = none) :
    (∀ (r : String) (s' : DetState),
      require_file env root pattern excl s = .ok r s' →
      s' = s ∧
      ∃ p, p ∈ env.iglob (pathJoin (globEscape root) pattern) ∧
        env.isfile p = true ∧
        excl.any (fun pat => fnmatch (basename p) pat) = false ∧
        r = relpath env.cwd p root) ∧
    ((∀ p ∈ env.iglob (pathJoin (globEscape root) pattern),
        env.isfile p = true →
        excl.any (fun pat => fnmatch (basename p) pat) = true) →
      require_file env root pattern excl s =
        .error (.unmet [requireFileDesc pattern excl]) s) := by
  obtain ⟨omc, tr, oh⟩ := s
  simp only at h
  subst h
  constructor
  · intro r s' hok
    by_cases hp : is_path_within_root pattern = false
    · simp [require_file, M.bind, start_requirement, fail, M.throw, hp] at hok
    · cases hscan : require_file_scan env root excl
        (env.iglob (pathJoin (globEscape root) pattern)) with
      | none =>
        simp [require_file, M.bind, start_requirement, fail, M.throw,
          hp, hscan] at hok
      | some rel =>
        simp only [require_file, M.bind, start_requirement, M.pure, hp,
          if_false, hscan] at hok
        obtain ⟨p, hmem, hf, he, hrel⟩ :=
          require_file_scan_some env root excl _ rel hscan
        cases hok
        exact ⟨rfl, p, hmem, hf, he, hrel⟩
  · intro hall
    have hscan := require_file_scan_none env root excl _ hall
    by_cases hp : is_path_within_root pattern = false
    · simp [require_file, M.bind, start_requirement, fail, M.throw, hp]
    · simp [require_file, M.bind, start_requirement, fail, M.throw, hp, hscan]

/-- C7 witness: the theorem applied to `envC7`, whose only glob match for
`a.txt` is the regular file `/r/a.txt`. -/
theorem C7_witness :
    initState.one_or_more_context = none ∧
    ((∀ (r : String) (s' : DetState),
      require_file envC7 "/r" "a.txt" ["b.txt"] initState = .ok r s' →
      s' = initState ∧
      ∃ p, p ∈ envC7.iglob (pathJoin (globEscape "/r") "a.txt") ∧
        envC7.isfile p = true ∧
        (["b.txt"] : List String).any
          (fun pat => fnmatch (basename p) pat) = false ∧
        r = relpath envC7.cwd p "/r") ∧
    ((∀ p ∈ envC7.iglob (pathJoin (globEscape "/r") "a.txt"),
        envC7.isfile p = true →
        (["b.txt"] : List String).any
          (fun pat => fnmatch (basename p) pat) = true) →
      require_file envC7 "/r" "a.txt" ["b.txt"] initState =
        .error (.unmet [requireFileDesc "a.txt" ["b.txt"]]) initState)) :=
  ⟨rfl, C7_theorem envC7 "/r" "a.txt" ["b.txt"] initState rfl⟩

/-- C8: when the root path is not an existing directory,
`apply_format_detector` raises `FormatRequirementsUnmet` from a fresh
context state, for every detector — in particular the final state carries
no trace of the detector running. -/
theorem C8_theorem (env : Env) (root : String)
    (detector : String → M (Option FormatDetectionConfidence))
    (h : env.isdir root = false) :
    apply_format_detector env root detector =
      .error (.unmet ["root path " ++ root ++ " must refer to a directory"])
        initState := by
  simp [apply_format_detector, M.bind, fail, start_requirement, M.throw,
    h, initState]

/-- C8 witness: the theorem applied to a detector with an observable side
effect; the effect is absent from the final state. -/
theorem C8_witness :
    envNoDir.isdir "/data" = false ∧
    apply_format_detector envNoDir "/data" noisyDetector =
      .error (.unmet ["root path " ++ "/data" ++ " must refer to a directory"])
        initState :=
  ⟨rfl, C8_theorem envNoDir "/data" noisyDetector rfl⟩

/-- C9: every confidence level's numeric value is strictly positive, and
whenever a detector returns normally, `apply_format_detector` returns
exactly the returned level, or MEDIUM when the detector returned `None` —
the truthiness default never replaces a real level. -/
theorem C9_theorem :
    (∀ l : FormatDetectionConfidence, 0 < l.value) ∧
    (∀ (env : Env) (root : String)
       (detector : String → M (Option FormatDetectionConfidence))
       (c : Option FormatDetectionConfidence) (s' : DetState),
      env.isdir root = true →
      detector root initState = .ok c s' →
      apply_format_detector env root detector =
        .ok (match c with
             | some v => v
             | none => FormatDetectionConfidence.MEDIUM) s') := by
  constructor
  · intro l
    cases l <;> simp [FormatDetectionConfidence.value]
  · intro env root detector c s' hdir hdet
    simp only [apply_format_detector, M.bind, M.pure, hdir, hdet]
    cases c with
    | none => simp [hdet, pyOrConfidence, M.pure]
    | some v =>
        cases v <;>
          simp [hdet, pyOrConfidence, FormatDetectionConfidence.value, M.pure]

/-- C9 witness: a detector returning LOW yields LOW. -/
theorem C9_witness :
    envDirOk.isdir "/data" = true ∧
    lowDetector "/data" initState = .ok (some .LOW) initState ∧
    apply_format_detector envDirOk "/data" lowDetector = .ok .LOW initState :=
  ⟨rfl, rfl,
    C9_theorem.2 envDirOk "/data" lowDetector (some .LOW) initState rfl rfl⟩

/-- C10: `require_any` clears the active alternation scope on every exit
path (for an arbitrary body, however it terminates), and `alternative`
always completes by restoring the saved parent scope — updated with the
body's success or collected failures — whether the body succeeds or raises
`FormatRequirementsUnmet`. -/
theorem C10_theorem :
    (∀ (body : M Unit) (s : DetState),
      s.one_or_more_context = none →
      ((require_any body s).state).one_or_more_context = none) ∧
    (∀ (a : AltSpec) (c : OneOrMoreContext) (s : DetState),
      s.one_or_more_context = some c →
      alternative (altBody a) s =
        .ok () { one_or_more_context := some (applyAlt c a),
                 trace := s.trace ++ a.effects,
                 openHandles := s.openHandles }) := by
  constructor
  · intro body s h
    obtain ⟨omc, tr, oh⟩ := s
    simp only at h
    subst h
    simp only [require_any, M.bind, start_requirement, M.setOMC,
      M.tryFinally, M.get, M.throw, M.pure]
    cases hb : body ⟨some ⟨[], false⟩, tr, oh⟩ with
    | ok a t =>
      obtain ⟨omc', tr', oh'⟩ := t
      cases omc' with
      | none => simp [MResult.state, M.throw, M.pure]
      | some c' =>
        by_cases h1 : c'.had_successful_alternatives
        · simp [h1, MResult.state, M.throw, M.pure]
        · by_cases h2 : c'.failed_alternatives = []
          · simp [h1, h2, MResult.state, M.throw, M.pure]
          · simp [h1, h2, MResult.state, M.throw, M.pure]
    | error e t => simp [MResult.state, M.throw, M.pure]
  · exact fun a c s h => alternative_altBody_run a c s h

/-- C10 witness: the scope is cleared after a trivial `require_any` body,
and `alternative` with a failing body restores the saved scope extended
with the failure. -/
theorem C10_witness :
    initState.one_or_more_context = none ∧
    ((require_any (M.pure ()) initState).state).one_or_more_context = none ∧
    sIn.one_or_more_context = some omcEx ∧
    alternative (altBody altC10) sIn =
      .ok () { one_or_more_context := some (applyAlt omcEx altC10),
               trace := sIn.trace ++ altC10.effects,
               openHandles := sIn.openHandles } :=
  ⟨rfl, C10_theorem.1 (M.pure ()) initState rfl, rfl,
    C10_theorem.2 altC10 omcEx sIn rfl⟩

end FormatDetection
